import Mathlib

/-!
Shallow embedding of the PyWebIO Flask backend session-bridging layer
(`pywebio/platform/flask.py`): the session registry (`_webio_sessions`),
the recency tracker (`_webio_expire`, an `LRUDict`), the expiry sweep
(`_remove_expired_sessions`), session removal (`_remove_webio_session`),
CORS negotiation (`cors_headers`) and the per-request dispatcher
(`_webio_view` / `webio_view`).

Python dictionaries are embedded as association lists (`List (String × α)`)
in insertion order; `OrderedDict.popitem(last=False)` pops the head,
`move_to_end(key, last=False)` moves an entry to the head.  A `del d[k]`
on an absent key raises `KeyError`; operations that may raise return
`Option`/error flags so the exception path is explicit.  Timestamps are
`Int` seconds.
-/

deriving instance DecidableEq for Except

namespace PyWebIO

/-- `k in d` for a Python dict embedded as an association list. -/
def containsKey (l : List (String × α)) (k : String) : Bool :=
  l.any (fun p => p.1 == k)

/-- `d[k]` lookup returning `none` when absent (`d.get(k)`). -/
def lookupKey (l : List (String × α)) (k : String) : Option α :=
  match l with
  | [] => none
  | p :: rest => if p.1 == k then some p.2 else lookupKey rest k

/-- Plain `dict.__setitem__`: update in place when the key exists
(keeping its position), otherwise append at the end. -/
def dictSet (l : List (String × α)) (k : String) (v : α) : List (String × α) :=
  if containsKey l k then
    l.map (fun p => if p.1 == k then (k, v) else p)
  else
    l ++ [(k, v)]

/-- All entries whose key differs from `k`. -/
def eraseKey (l : List (String × α)) (k : String) : List (String × α) :=
  l.filter (fun p => p.1 != k)

/-- `del d[k]`: `none` models the `KeyError` raised when `k` is absent. -/
def delKey (l : List (String × α)) (k : String) : Option (List (String × α)) :=
  if containsKey l k then some (eraseKey l k) else none

/-- Modelled from the spec: `LRUDict.__setitem__` (`pywebio/utils.py`,
not shipped under `src/`).  The Recency Order invariant says a touched
token's record "is removed and reinserted at the most-recently-active
end with an updated timestamp", i.e. set-then-`move_to_end`. -/
def lruSet (l : List (String × α)) (k : String) (v : α) : List (String × α) :=
  eraseKey l k ++ [(k, v)]

/-- `OrderedDict.move_to_end(k, last=False)`: move the entry for `k` to
the front.  (At its use site `k` was just inserted, so the `KeyError`
case of a missing key cannot fire; we leave the list unchanged there.) -/
def moveToFront (l : List (String × α)) (k : String) : List (String × α) :=
  match lookupKey l k with
  | some v => (k, v) :: eraseKey l k
  | none => l

/-- An externally implemented session handle (the `AbstractSession`
collaborator): `sid` is its identity, `closed` the value `closed()`
reports after this request's processing, `commands` what
`get_task_commands()` returns. -/
structure Session where
  sid : Nat
  closed : Bool
  commands : List String
deriving DecidableEq, Repr

/-- The module-level mutable state of `pywebio/platform/flask.py`:
`_webio_sessions`, `_webio_expire` and `_last_check_session_expire_ts`. -/
structure ServerState where
  sessions : List (String × Session)
  expire : List (String × Int)
  lastCheckTs : Int
deriving DecidableEq, Repr

/-- `DEFAULT_SESSION_EXPIRE_SECONDS = 60`. -/
def DEFAULT_SESSION_EXPIRE_SECONDS : Int := 60

/-- `REMOVE_EXPIRED_SESSIONS_INTERVAL = 20`. -/
def REMOVE_EXPIRED_SESSIONS_INTERVAL : Int := 20

/-- `WAIT_MS_ON_POST = 100`. -/
def WAIT_MS_ON_POST : Nat := 100

/-- `_remove_expired_sessions(session_expire_seconds)`: pop the
least-recently-active entry; if it is still fresh, reinsert it and move
it back to the front, then stop; otherwise `del _webio_sessions[sid]`
and continue.  Returns the final `_webio_expire`, `_webio_sessions` and
`true` on normal return; `false` models the `KeyError` raised when an
expired token has no registry entry (the expire entry is already popped
at that point). -/
def _remove_expired_sessions (expire : List (String × Int))
    (sessions : List (String × Session)) (session_expire_seconds now : Int) :
    List (String × Int) × List (String × Session) × Bool :=
  match expire with
  | [] => ([], sessions, true)
  | (sid, activeTs) :: rest =>
    if now - activeTs < session_expire_seconds then
      (moveToFront (lruSet rest sid activeTs) sid, sessions, true)
    else
      match delKey sessions sid with
      | none => (rest, sessions, false)
      | some sessions' =>
        _remove_expired_sessions rest sessions' session_expire_seconds now

/-- `_remove_webio_session(sid)`: `del _webio_sessions[sid]` then
`del _webio_expire[sid]`.  The `Bool` is `false` when a `KeyError`
escapes; the returned state keeps whatever mutation happened before the
raise. -/
def _remove_webio_session (st : ServerState) (sid : String) :
    ServerState × Bool :=
  match delKey st.sessions sid with
  | none => (st, false)
  | some sessions' =>
    match delKey st.expire sid with
    | none => ({ st with sessions := sessions' }, false)
    | some expire' => ({ st with sessions := sessions', expire := expire' }, true)

/-- Header values: strings, or the integer `Access-Control-Max-Age`. -/
inductive HVal
  | str (s : String)
  | num (n : Nat)
deriving DecidableEq, Repr

/-- A `check_origin` predicate.  Evaluation can raise (the default
predicate built by `webio_view` with `allowed_origins=None` iterates
over `None` and raises `TypeError`), hence `Except Unit Bool`. -/
def OriginCheck := String → Except Unit Bool

/-- Lift a pure predicate to a never-raising `check_origin`. -/
def pureCheck (p : String → Bool) : OriginCheck :=
  fun origin => Except.ok (p origin)

/-- The five headers `cors_headers` writes on approval, applied over an
initial header dict. -/
def setCorsGrant (origin : String) (headers : List (String × HVal)) :
    List (String × HVal) :=
  dictSet (dictSet (dictSet (dictSet (dictSet headers
    "Access-Control-Allow-Origin" (.str origin))
    "Access-Control-Allow-Methods" (.str "GET, POST"))
    "Access-Control-Allow-Headers" (.str "content-type, webio-session-id"))
    "Access-Control-Expose-Headers" (.str "webio-session-id"))
    "Access-Control-Max-Age" (.num (1440 * 60))

/-- `cors_headers(origin, check_origin, headers)` (with `headers=None`
passed as `[]`): when the predicate approves the origin, set the five
CORS headers on the given dict; otherwise return it unchanged.
`Except.error` propagates an exception raised by `check_origin`. -/
def cors_headers (origin : String) (check_origin : OriginCheck)
    (headers : List (String × HVal)) : Except Unit (List (String × HVal)) := do
  if (← check_origin origin) then
    pure (setCorsGrant origin headers)
  else
    pure headers

/-- Does `f` accept some suffix of the given string?  Implements `*`,
which matches an arbitrary (possibly empty) leading substring. -/
def matchAnySuffix (f : List Char → Bool) : List Char → Bool
  | [] => f []
  | c :: cs => f (c :: cs) || matchAnySuffix f cs

/-- Shell-style wildcard matching on character lists, as
`fnmatch.fnmatch` performs on POSIX (case preserved): `*` matches any
substring, `?` any single character, other characters literally. -/
def globMatch : List Char → List Char → Bool
  | s, [] => s.isEmpty
  | s, '*' :: ps => matchAnySuffix (fun t => globMatch t ps) s
  | [], _ :: _ => false
  | c :: cs, pc :: ps => (pc == '?' || pc == c) && globMatch cs ps

/-- `fnmatch.fnmatch(name, pattern)`. -/
def fnmatch (name pattern : String) : Bool :=
  globMatch name.toList pattern.toList

/-- The `check_origin` that `webio_view` installs when none is given:
`lambda origin: any(fnmatch.fnmatch(origin, patten) for patten in
allowed_origins)`.  When `allowed_origins` is `None` (its own default),
the `for` iterates over `None` and raises `TypeError`. -/
def default_check_origin (allowed_origins : Option (List String)) : OriginCheck :=
  fun origin =>
    match allowed_origins with
    | none => Except.error ()
    | some patterns => Except.ok (patterns.any (fun patten => fnmatch origin patten))

/-- `webio_view`'s choice of predicate: an explicit `check_origin` wins,
otherwise the `allowed_origins`-based default above. -/
def make_check_origin (allowed_origins : Option (List String))
    (check_origin : Option OriginCheck) : OriginCheck :=
  match check_origin with
  | some f => f
  | none => default_check_origin allowed_origins

/-- HTTP method of a request to the endpoint. -/
inductive Method
  | GET
  | POST
  | OPTIONS
deriving DecidableEq, Repr

/-- The parts of a Flask `request` the view reads.  `origin` is
`request.headers.get('Origin')` (`some ""` is an empty header, falsy in
Python); `testArg` is the truthiness of `request.args.get('test')`;
`sessionHeader` the `webio-session-id` header; `body` the decoded JSON
event `request.json` (opaque payload). -/
structure Request where
  method : Method
  origin : Option String
  testArg : Bool
  sessionHeader : Option String
  body : String
deriving DecidableEq, Repr

/-- A JSON response body: `text` for `Response(...)` bodies, `json` for
`jsonify(...)` of a command list; `dict(command='close_session')` is the
distinguished `closeSession` element, session-produced commands are
opaque strings. -/
inductive RespBody
  | text (s : String)
  | json (cmds : List String)
deriving DecidableEq, Repr

/-- The close-session directive `dict(command='close_session')`. -/
def closeSessionCmd : String := "\x7b\x22command\x22: \x22close_session\x22\x7d"

/-- An assembled HTTP response. -/
structure HttpResponse where
  status : Nat
  body : RespBody
  headers : List (String × HVal)
deriving DecidableEq, Repr

/-- Outcome of one request: a response, or an uncaught Python exception
(`TypeError` from the default origin predicate, `KeyError` from `del`). -/
inductive Outcome
  | ok (r : HttpResponse)
  | exn
deriving DecidableEq, Repr

/-- Observable side effects on the session collaborator: events pushed
via `send_client_event` (paired with the receiving session's identity)
and the milliseconds slept before output collection. -/
structure Effects where
  forwarded : List (Nat × String)
  sleptMs : Nat
deriving DecidableEq, Repr

/-- No collaborator interaction. -/
def noEffects : Effects := ⟨[], 0⟩

/-- The opportunistic cleanup of `_webio_view` (flask.py lines 125-128):
when the last expiry check is older than
`REMOVE_EXPIRED_SESSIONS_INTERVAL`, run `_remove_expired_sessions` and,
only when it returns normally, record `now` as the last-check
timestamp.  The `Bool` is `false` when the sweep raised. -/
def runSweepIfDue (session_expire_seconds now : Int) (st : ServerState) :
    ServerState × Bool :=
  if now - st.lastCheckTs > REMOVE_EXPIRED_SESSIONS_INTERVAL then
    if (_remove_expired_sessions st.expire st.sessions session_expire_seconds now).2.2 then
      (⟨(_remove_expired_sessions st.expire st.sessions session_expire_seconds now).2.1,
        (_remove_expired_sessions st.expire st.sessions session_expire_seconds now).1,
        now⟩, true)
    else
      (⟨(_remove_expired_sessions st.expire st.sessions session_expire_seconds now).2.1,
        (_remove_expired_sessions st.expire st.sessions session_expire_seconds now).1,
        st.lastCheckTs⟩, false)
  else (st, true)

/-- The tail of `_webio_view` shared by the `NEW_SESSION` and
`RESUME_SESSION` branches (flask.py lines 119-139): forward the client
event on `POST` and sleep `WAIT_MS_ON_POST` ms; run the opportunistic
cleanup; build the response from `get_task_commands()`; tear the
session down via `_remove_webio_session` when it reports closed; attach
the accumulated headers to the response. -/
def handleSession (session_expire_seconds now : Int) (req : Request)
    (headers : List (String × HVal)) (sid : String) (sess : Session)
    (st : ServerState) : ServerState × Effects × Outcome :=
  let eff : Effects :=
    if req.method = Method.POST then ⟨[(sess.sid, req.body)], WAIT_MS_ON_POST⟩
    else noEffects
  match runSweepIfDue session_expire_seconds now st with
  | (st1, false) => (st1, eff, Outcome.exn)
  | (st1, true) =>
    let respBody := RespBody.json sess.commands
    if sess.closed then
      match _remove_webio_session st1 sid with
      | (st2, false) => (st2, eff, Outcome.exn)
      | (st2, true) => (st2, eff, Outcome.ok ⟨200, respBody, headers⟩)
    else (st1, eff, Outcome.ok ⟨200, respBody, headers⟩)

/-- `_webio_view(target, session_expire_seconds, check_origin)` run on
one request.  `newToken` stands for the `random_str(24)` drawn in the
new-session branch, `newSession` for the `Session(target)` constructed
there, `now` for `time.time()` during this request.  Returns the state
of the module dicts after the request, the collaborator effects, and
the outcome. -/
def _webio_view (check_origin : OriginCheck) (session_expire_seconds : Int)
    (newToken : String) (newSession : Session) (now : Int)
    (req : Request) (st : ServerState) : ServerState × Effects × Outcome :=
  if req.method = Method.OPTIONS then
    match cors_headers (req.origin.getD "") check_origin [] with
    | Except.error _ => (st, noEffects, Outcome.exn)
    | Except.ok hs => (st, noEffects, Outcome.ok ⟨204, RespBody.text "", hs⟩)
  else
    let headersE : Except Unit (List (String × HVal)) :=
      match req.origin with
      | some o => if o = "" then Except.ok [] else cors_headers o check_origin []
      | none => Except.ok []
    match headersE with
    | Except.error _ => (st, noEffects, Outcome.exn)
    | Except.ok headers =>
      if req.testArg then
        (st, noEffects, Outcome.ok ⟨200, RespBody.text "ok", headers⟩)
      else
        match req.sessionHeader with
        | none =>
          handleSession session_expire_seconds now req
            (dictSet headers "webio-session-id" (HVal.str newToken)) newToken
            newSession
            ⟨dictSet st.sessions newToken newSession,
             lruSet st.expire newToken now, st.lastCheckTs⟩
        | some t =>
          if t = "" then
            handleSession session_expire_seconds now req
              (dictSet headers "webio-session-id" (HVal.str newToken)) newToken
              newSession
              ⟨dictSet st.sessions newToken newSession,
               lruSet st.expire newToken now, st.lastCheckTs⟩
          else
            match lookupKey st.sessions t with
            | none =>
              (st, noEffects, Outcome.ok ⟨200, RespBody.json [closeSessionCmd], []⟩)
            | some sess =>
              handleSession session_expire_seconds now req headers t sess st

/-- `webio_view(target, session_expire_seconds, allowed_origins,
check_origin)`: builds the origin predicate (the `fnmatch` default when
`check_origin` is `None`) and closes `_webio_view` over it. -/
def webio_view (session_expire_seconds : Int)
    (allowed_origins : Option (List String)) (check_origin : Option OriginCheck)
    (newToken : String) (newSession : Session) (now : Int)
    (req : Request) (st : ServerState) : ServerState × Effects × Outcome :=
  _webio_view (make_check_origin allowed_origins check_origin)
    session_expire_seconds newToken newSession now req st

/-- Some entry for token `t` in the given recency-tracker snapshot has
idle duration `now - lastActive` at or above the threshold. -/
def expiredIn (expire : List (String × Int)) (thresh now : Int) (t : String) : Bool :=
  expire.any (fun p => p.1 == t && decide (thresh ≤ now - p.2))

/-- Recency order: last-active timestamps are non-decreasing from the
least-recently-active end of the tracker. -/
def tsSorted : List (String × Int) → Bool
  | [] => true
  | [_] => true
  | a :: b :: rest => decide (a.2 ≤ b.2) && tsSorted (b :: rest)

/-- Well-formedness of the module state: both dicts have the unique
keys a Python dict guarantees, and the Registry and the Recency Tracker
hold exactly the same tokens (the ActivityRecord/SessionHandle pairing
invariant). -/
def StateWF (st : ServerState) : Prop :=
  (st.sessions.map Prod.fst).Nodup ∧ (st.expire.map Prod.fst).Nodup ∧
  ∀ t, containsKey st.sessions t = containsKey st.expire t

/-- The header dict `_webio_view` accumulates before the session branch
for a non-preflight request with a pure origin predicate: CORS headers
when an `Origin` header is present, non-empty and approved. -/
def requestHeaders (p : String → Bool) (req : Request) : List (String × HVal) :=
  match req.origin with
  | some o => if o = "" then [] else (if p o then setCorsGrant o [] else [])
  | none => []

section DictLemmas

variable {α : Type}

theorem containsKey_eq_true_iff (l : List (String × α)) (k : String) :
    containsKey l k = true ↔ k ∈ l.map Prod.fst := by
  simp only [containsKey, List.any_eq_true, List.mem_map, beq_iff_eq]

theorem containsKey_eq_false_iff (l : List (String × α)) (k : String) :
    containsKey l k = false ↔ k ∉ l.map Prod.fst := by
  rw [← Bool.not_eq_true, not_iff_not]
  exact containsKey_eq_true_iff l k

theorem eraseKey_cons (p : String × α) (l : List (String × α)) (k : String) :
    eraseKey (p :: l) k =
      if p.1 = k then eraseKey l k else p :: eraseKey l k := by
  simp only [eraseKey, List.filter_cons, bne_iff_ne, ne_eq, decide_not]
  by_cases h : p.1 = k <;> simp [h]

theorem eraseKey_of_not_contains (l : List (String × α)) (k : String)
    (h : containsKey l k = false) : eraseKey l k = l := by
  induction l with
  | nil => rfl
  | cons p rest ih =>
    simp only [containsKey, List.any_cons, Bool.or_eq_false_iff] at h
    rw [eraseKey_cons, if_neg (by simpa using h.1), ih (by simpa [containsKey] using h.2)]

theorem containsKey_eraseKey (l : List (String × α)) (k t : String) :
    containsKey (eraseKey l k) t = ((t != k) && containsKey l t) := by
  rw [Bool.eq_iff_iff]
  simp only [Bool.and_eq_true, bne_iff_ne, ne_eq, containsKey_eq_true_iff,
    eraseKey, List.mem_map, List.mem_filter, bne_iff_ne]
  constructor
  · rintro ⟨p, ⟨hp, hpk⟩, rfl⟩
    exact ⟨by simpa using hpk, ⟨p, hp, rfl⟩⟩
  · rintro ⟨htk, ⟨p, hp, rfl⟩⟩
    exact ⟨p, ⟨hp, by simpa using htk⟩, rfl⟩

theorem lookupKey_eraseKey_ne (l : List (String × α)) (k t : String)
    (h : t ≠ k) : lookupKey (eraseKey l k) t = lookupKey l t := by
  induction l with
  | nil => rfl
  | cons p rest ih =>
    rw [eraseKey_cons]
    by_cases hpk : p.1 = k
    · rw [if_pos hpk, ih, lookupKey, if_neg (by simp [hpk, Ne.symm h])]
    · rw [if_neg hpk, lookupKey, lookupKey]
      by_cases hpt : p.1 = t
      · simp [hpt]
      · rw [if_neg (by simpa using hpt), if_neg (by simpa using hpt), ih]

theorem lookupKey_append_of_not_contains (l l2 : List (String × α)) (k : String)
    (h : containsKey l k = false) : lookupKey (l ++ l2) k = lookupKey l2 k := by
  induction l with
  | nil => rfl
  | cons p rest ih =>
    simp only [containsKey, List.any_cons, Bool.or_eq_false_iff] at h
    rw [List.cons_append, lookupKey, if_neg (by simpa using h.1),
      ih (by simpa [containsKey] using h.2)]

theorem lookupKey_lruSet_self (l : List (String × α)) (k : String) (v : α) :
    lookupKey (lruSet l k v) k = some v := by
  rw [lruSet, lookupKey_append_of_not_contains _ _ _
    (by rw [containsKey_eraseKey]; simp), lookupKey]
  simp

theorem containsKey_lruSet (l : List (String × α)) (k t : String) (v : α) :
    containsKey (lruSet l k v) t = (containsKey l t || t == k) := by
  rw [lruSet,
    show containsKey (eraseKey l k ++ [(k, v)]) t
      = (containsKey (eraseKey l k) t || containsKey [(k, v)] t) from by
        simp [containsKey, List.any_append],
    containsKey_eraseKey]
  by_cases htk : t = k
  · subst htk
    simp [containsKey]
  · have h1 : (t == k) = false := by simpa using htk
    have h2 : (k == t) = false := by simpa using Ne.symm htk
    have h3 : (t != k) = true := by rw [bne, h1]; rfl
    simp [containsKey, h1, h2, h3]

theorem lookupKey_map_set (l : List (String × α)) (k : String) (v : α)
    (h : containsKey l k = true) :
    lookupKey (l.map (fun p => if p.1 == k then (k, v) else p)) k = some v := by
  induction l with
  | nil => simp [containsKey] at h
  | cons p rest ih =>
    rw [List.map_cons]
    by_cases hpk : p.1 = k
    · rw [if_pos (by simpa using hpk), lookupKey, if_pos (by simp)]
    · rw [if_neg (by simpa using hpk), lookupKey, if_neg (by simpa using hpk)]
      apply ih
      simp only [containsKey, List.any_cons, Bool.or_eq_true] at h
      rcases h with h1 | h1
      · exact absurd (by simpa using h1) hpk
      · exact h1

theorem lookupKey_dictSet_self (l : List (String × α)) (k : String) (v : α) :
    lookupKey (dictSet l k v) k = some v := by
  rw [dictSet]
  by_cases h : containsKey l k = true
  · rw [if_pos h]; exact lookupKey_map_set l k v h
  · rw [if_neg h, lookupKey_append_of_not_contains _ _ _ (by simpa using h), lookupKey]
    simp

theorem keys_map_set (l : List (String × α)) (k : String) (v : α) :
    (l.map (fun p => if p.1 == k then (k, v) else p)).map Prod.fst = l.map Prod.fst := by
  induction l with
  | nil => rfl
  | cons p rest ih =>
    rw [List.map_cons, List.map_cons, List.map_cons, ih]
    by_cases hpk : p.1 = k
    · rw [if_pos (by simpa using hpk)]
      simp [hpk]
    · rw [if_neg (by simpa using hpk)]

theorem containsKey_keys_congr (l1 l2 : List (String × α))
    (h : l1.map Prod.fst = l2.map Prod.fst) (t : String) :
    containsKey l1 t = containsKey l2 t := by
  rw [Bool.eq_iff_iff, containsKey_eq_true_iff, containsKey_eq_true_iff, h]

theorem containsKey_dictSet (l : List (String × α)) (k t : String) (v : α) :
    containsKey (dictSet l k v) t = (containsKey l t || t == k) := by
  rw [dictSet]
  by_cases h : containsKey l k = true
  · rw [if_pos h, containsKey_keys_congr _ l (keys_map_set l k v) t]
    by_cases htk : t = k
    · subst htk
      simp [h]
    · simp [htk]
  · rw [if_neg h,
      show containsKey (l ++ [(k, v)]) t
        = (containsKey l t || containsKey [(k, v)] t) from by
          simp [containsKey, List.any_append]]
    by_cases htk : t = k
    · subst htk
      simp [containsKey]
    · have h1 : (t == k) = false := by simpa using htk
      have h2 : (k == t) = false := by simpa using Ne.symm htk
      simp [containsKey, h1, h2]

theorem lookupKey_map_set_ne (l : List (String × α)) (k t : String) (v : α)
    (h : t ≠ k) :
    lookupKey (l.map (fun p => if p.1 == k then (k, v) else p)) t = lookupKey l t := by
  induction l with
  | nil => rfl
  | cons p rest ih =>
    by_cases hpk : p.1 = k
    · rw [List.map_cons, if_pos (by simpa using hpk), lookupKey, lookupKey,
        if_neg (by simpa using Ne.symm h), if_neg (by simp [hpk, Ne.symm h]), ih]
    · rw [List.map_cons, if_neg (by simpa using hpk), lookupKey, lookupKey, ih]

theorem lookupKey_append_single_ne (l : List (String × α)) (k t : String)
    (v : α) (h : t ≠ k) : lookupKey (l ++ [(k, v)]) t = lookupKey l t := by
  induction l with
  | nil =>
    simp only [List.nil_append, lookupKey]
    rw [if_neg (by simpa using Ne.symm h)]
  | cons p rest ih =>
    rw [List.cons_append, lookupKey, lookupKey]
    by_cases hpt : p.1 = t
    · simp [hpt]
    · rw [if_neg (by simpa using hpt), if_neg (by simpa using hpt), ih]

theorem lookupKey_dictSet_ne (l : List (String × α)) (k t : String) (v : α)
    (h : t ≠ k) : lookupKey (dictSet l k v) t = lookupKey l t := by
  rw [dictSet]
  by_cases hc : containsKey l k = true
  · rw [if_pos hc, lookupKey_map_set_ne _ _ _ _ h]
  · rw [if_neg hc, lookupKey_append_single_ne _ _ _ _ h]

theorem lookupKey_lruSet_ne (l : List (String × α)) (k t : String) (v : α)
    (h : t ≠ k) : lookupKey (lruSet l k v) t = lookupKey l t := by
  rw [lruSet, lookupKey_append_single_ne _ _ _ _ h, lookupKey_eraseKey_ne _ _ _ h]

theorem keys_eraseKey_sublist (l : List (String × α)) (k : String) :
    ((eraseKey l k).map Prod.fst).Sublist (l.map Prod.fst) :=
  List.Sublist.map Prod.fst (List.filter_sublist l)

theorem nodup_keys_eraseKey (l : List (String × α)) (k : String)
    (h : (l.map Prod.fst).Nodup) : ((eraseKey l k).map Prod.fst).Nodup :=
  List.Nodup.sublist (keys_eraseKey_sublist l k) h

theorem nodup_keys_lruSet (l : List (String × α)) (k : String) (v : α)
    (h : (l.map Prod.fst).Nodup) : ((lruSet l k v).map Prod.fst).Nodup := by
  rw [lruSet, List.map_append, List.nodup_append]
  refine ⟨nodup_keys_eraseKey l k h, by simp, ?_⟩
  intro a ha hb
  simp only [List.map_cons, List.map_nil, List.mem_singleton] at hb
  have hc := (containsKey_eq_true_iff (eraseKey l k) a).mpr ha
  rw [containsKey_eraseKey, hb] at hc
  simp at hc

theorem nodup_keys_dictSet (l : List (String × α)) (k : String) (v : α)
    (h : (l.map Prod.fst).Nodup) : ((dictSet l k v).map Prod.fst).Nodup := by
  rw [dictSet]
  by_cases hc : containsKey l k = true
  · rw [if_pos hc, keys_map_set]
    exact h
  · rw [if_neg hc, List.map_append, List.nodup_append]
    refine ⟨h, by simp, ?_⟩
    intro a ha hb
    simp only [List.map_cons, List.map_nil, List.mem_singleton] at hb
    rw [hb] at ha
    exact absurd ((containsKey_eq_true_iff l k).mpr ha) (by simpa using hc)

end DictLemmas

section SweepLemmas

theorem tsSorted_tail (p : String × Int) (l : List (String × Int))
    (h : tsSorted (p :: l) = true) : tsSorted l = true := by
  cases l with
  | nil => rfl
  | cons q rest =>
    rw [tsSorted, Bool.and_eq_true] at h
    exact h.2

theorem tsSorted_head_le (p : String × Int) (l : List (String × Int))
    (h : tsSorted (p :: l) = true) : ∀ q ∈ l, p.2 ≤ q.2 := by
  induction l generalizing p with
  | nil =>
    intro q hq
    cases hq
  | cons b rest ih =>
    intro q hq
    have h1 : p.2 ≤ b.2 := by
      rw [tsSorted, Bool.and_eq_true, decide_eq_true_iff] at h
      exact h.1
    rcases List.mem_cons.mp hq with rfl | hq'
    · exact h1
    · exact le_trans h1 (ih b (tsSorted_tail p (b :: rest) h) q hq')

theorem eraseKey_append {α : Type} (l1 l2 : List (String × α)) (k : String) :
    eraseKey (l1 ++ l2) k = eraseKey l1 k ++ eraseKey l2 k := by
  simp [eraseKey]

/-- Reinserting the just-popped fresh head and moving it to the front
restores the tracker exactly (keys are unique in an `OrderedDict`). -/
theorem sweep_fresh_head (sid : String) (ts : Int) (rest : List (String × Int))
    (h : containsKey rest sid = false) :
    moveToFront (lruSet rest sid ts) sid = (sid, ts) :: rest := by
  rw [lruSet, eraseKey_of_not_contains rest sid h, moveToFront,
    show lookupKey (rest ++ [(sid, ts)]) sid = some ts from by
      rw [lookupKey_append_of_not_contains _ _ _ h, lookupKey]
      simp,
    eraseKey_append, eraseKey_of_not_contains rest sid h,
    show eraseKey [(sid, ts)] sid = [] from by simp [eraseKey],
    List.append_nil]

theorem nodup_head_not_contains {α : Type} (p : String × α)
    (rest : List (String × α)) (h : ((p :: rest).map Prod.fst).Nodup) :
    containsKey rest p.1 = false := by
  rw [containsKey_eq_false_iff]
  rw [List.map_cons, List.nodup_cons] at h
  exact h.1

/-- The sweep leaves the tracker entry of every still-fresh token in
place (it is at worst popped once and reinserted). -/
theorem sweep_expire_fresh (expire : List (String × Int))
    (sessions : List (String × Session)) (thresh now : Int) (t : String) (ts : Int)
    (hnd : (expire.map Prod.fst).Nodup)
    (hl : lookupKey expire t = some ts) (hfresh : now - ts < thresh) :
    lookupKey (_remove_expired_sessions expire sessions thresh now).1 t = some ts := by
  induction expire generalizing sessions with
  | nil => cases hl
  | cons hd rest ih =>
    obtain ⟨sid, hts⟩ := hd
    simp only [_remove_expired_sessions]
    by_cases hfr : now - hts < thresh
    · rw [if_pos hfr, sweep_fresh_head _ _ _ (nodup_head_not_contains (sid, hts) rest hnd)]
      exact hl
    · rw [if_neg hfr]
      have hst : sid ≠ t := by
        intro he
        rw [lookupKey, if_pos (by simpa using he)] at hl
        cases hl
        exact hfr hfresh
      have hl' : lookupKey rest t = some ts := by
        rw [lookupKey, if_neg (by simpa using hst)] at hl
        exact hl
      cases hdel : delKey sessions sid with
      | none => exact hl'
      | some sessions' =>
        exact ih sessions' (by rw [List.map_cons, List.nodup_cons] at hnd; exact hnd.2) hl'

/-- The sweep never deletes the registry entry of a still-fresh token. -/
theorem sweep_sessions_fresh (expire : List (String × Int))
    (sessions : List (String × Session)) (thresh now : Int) (t : String) (ts : Int)
    (hnd : (expire.map Prod.fst).Nodup)
    (hl : lookupKey expire t = some ts) (hfresh : now - ts < thresh) :
    lookupKey (_remove_expired_sessions expire sessions thresh now).2.1 t =
      lookupKey sessions t := by
  induction expire generalizing sessions with
  | nil => cases hl
  | cons hd rest ih =>
    obtain ⟨sid, hts⟩ := hd
    simp only [_remove_expired_sessions]
    by_cases hfr : now - hts < thresh
    · rw [if_pos hfr]
    · rw [if_neg hfr]
      have hst : sid ≠ t := by
        intro he
        rw [lookupKey, if_pos (by simpa using he)] at hl
        cases hl
        exact hfr hfresh
      have hl' : lookupKey rest t = some ts := by
        rw [lookupKey, if_neg (by simpa using hst)] at hl
        exact hl
      cases hdel : delKey sessions sid with
      | none => rfl
      | some sessions' =>
        rw [ih sessions' (by rw [List.map_cons, List.nodup_cons] at hnd; exact hnd.2) hl']
        rw [delKey] at hdel
        by_cases hc : containsKey sessions sid = true
        · rw [if_pos hc] at hdel
          cases hdel
          exact lookupKey_eraseKey_ne _ _ _ (Ne.symm hst)
        · rw [if_neg hc] at hdel
          cases hdel

/-- The sweep only ever removes registry entries. -/
theorem sweep_sessions_contains_mono (expire : List (String × Int))
    (sessions : List (String × Session)) (thresh now : Int) (t : String)
    (h : containsKey (_remove_expired_sessions expire sessions thresh now).2.1 t = true) :
    containsKey sessions t = true := by
  induction expire generalizing sessions with
  | nil => exact h
  | cons hd rest ih =>
    obtain ⟨sid, hts⟩ := hd
    simp only [_remove_expired_sessions] at h
    by_cases hfr : now - hts < thresh
    · rw [if_pos hfr] at h
      exact h
    · rw [if_neg hfr] at h
      cases hdel : delKey sessions sid with
      | none =>
        rw [hdel] at h
        exact h
      | some sessions' =>
        rw [hdel] at h
        have := ih sessions' h
        rw [delKey] at hdel
        by_cases hc : containsKey sessions sid = true
        · rw [if_pos hc] at hdel
          cases hdel
          rw [containsKey_eraseKey, Bool.and_eq_true] at this
          exact this.2
        · rw [if_neg hc] at hdel
          cases hdel

end SweepLemmas

section InvariantLemmas

theorem sweep_preserves_pair (expire : List (String × Int))
    (sessions : List (String × Session)) (thresh now : Int)
    (hnds : (sessions.map Prod.fst).Nodup)
    (hnde : (expire.map Prod.fst).Nodup)
    (hinv : ∀ t, containsKey sessions t = containsKey expire t) :
    (_remove_expired_sessions expire sessions thresh now).2.2 = true ∧
    ((_remove_expired_sessions expire sessions thresh now).2.1.map Prod.fst).Nodup ∧
    ((_remove_expired_sessions expire sessions thresh now).1.map Prod.fst).Nodup ∧
    ∀ t, containsKey (_remove_expired_sessions expire sessions thresh now).2.1 t
        = containsKey (_remove_expired_sessions expire sessions thresh now).1 t := by
  induction expire generalizing sessions with
  | nil =>
    simp only [_remove_expired_sessions]
    exact ⟨by simp, hnds, by simp, fun t => hinv t⟩
  | cons hd rest ih =>
    obtain ⟨sid, hts⟩ := hd
    simp only [_remove_expired_sessions]
    by_cases hfr : now - hts < thresh
    · rw [if_pos hfr, sweep_fresh_head _ _ _ (nodup_head_not_contains (sid, hts) rest hnde)]
      exact ⟨rfl, hnds, hnde, hinv⟩
    · rw [if_neg hfr]
      have hc : containsKey sessions sid = true := by
        rw [hinv sid]
        simp [containsKey]
      cases hdel : delKey sessions sid with
      | none =>
        rw [delKey, if_pos hc] at hdel
        cases hdel
      | some sessions' =>
        rw [delKey, if_pos hc] at hdel
        cases hdel
        refine ih (eraseKey sessions sid) (nodup_keys_eraseKey _ _ hnds)
          (by rw [List.map_cons, List.nodup_cons] at hnde; exact hnde.2) ?_
        intro t
        rw [containsKey_eraseKey]
        by_cases hts' : t = sid
        · subst hts'
          rw [show containsKey rest t = false from
            nodup_head_not_contains (t, hts) rest hnde]
          simp
        · have h1 : (t != sid) = true := by
            rw [bne]
            simp [hts']
          rw [h1, Bool.true_and, hinv t, containsKey,
            List.any_cons]
          have h2 : ((sid, hts).1 == t) = false := by
            simpa using Ne.symm hts'
          rw [h2, Bool.false_or]
          rfl

theorem remove_preserves_WF (st : ServerState) (sid : String) (h : StateWF st) :
    StateWF (_remove_webio_session st sid).1 := by
  obtain ⟨h1, h2, h3⟩ := h
  simp only [_remove_webio_session]
  cases hdel : delKey st.sessions sid with
  | none => exact ⟨h1, h2, h3⟩
  | some sessions' =>
    rw [delKey] at hdel
    by_cases hc : containsKey st.sessions sid = true
    · rw [if_pos hc] at hdel
      cases hdel
      have hce : containsKey st.expire sid = true := by
        rw [← h3]
        exact hc
      cases hdel2 : delKey st.expire sid with
      | none =>
        rw [delKey, if_pos hce] at hdel2
        cases hdel2
      | some expire' =>
        rw [delKey, if_pos hce] at hdel2
        cases hdel2
        exact ⟨nodup_keys_eraseKey _ _ h1, nodup_keys_eraseKey _ _ h2,
          fun t => by rw [containsKey_eraseKey, containsKey_eraseKey, h3 t]⟩
    · rw [if_neg hc] at hdel
      cases hdel

theorem runSweep_WF (sesec now : Int) (st : ServerState) (h : StateWF st) :
    (runSweepIfDue sesec now st).2 = true ∧ StateWF (runSweepIfDue sesec now st).1 := by
  obtain ⟨h1, h2, h3⟩ := h
  rw [runSweepIfDue]
  by_cases hdue : now - st.lastCheckTs > REMOVE_EXPIRED_SESSIONS_INTERVAL
  · rw [if_pos hdue]
    obtain ⟨hflag, hs, he, hi⟩ :=
      sweep_preserves_pair st.expire st.sessions sesec now h1 h2 h3
    rw [hflag, if_pos rfl]
    exact ⟨rfl, hs, he, fun t => hi t⟩
  · rw [if_neg hdue]
    exact ⟨rfl, h1, h2, h3⟩

theorem handleSession_WF (sesec now : Int) (req : Request)
    (headers : List (String × HVal)) (sid : String) (sess : Session)
    (st : ServerState) (h : StateWF st) :
    StateWF (handleSession sesec now req headers sid sess st).1 := by
  simp only [handleSession]
  obtain ⟨hflag, hwf⟩ := runSweep_WF sesec now st h
  rcases hrs : runSweepIfDue sesec now st with ⟨st1, flag⟩
  rw [hrs] at hflag hwf
  simp only at hflag hwf
  subst hflag
  by_cases hcl : sess.closed = true
  · rw [hcl]
    simp only [if_true]
    rcases hrm : _remove_webio_session st1 sid with ⟨st2, flag2⟩
    have := remove_preserves_WF st1 sid hwf
    rw [hrm] at this
    cases flag2 <;> exact this
  · rw [Bool.not_eq_true] at hcl
    rw [hcl]
    simp only [Bool.false_eq_true, if_false]
    exact hwf

end InvariantLemmas

section ViewLemmas

theorem cors_headers_pure (origin : String) (p : String → Bool)
    (headers : List (String × HVal)) :
    cors_headers origin (pureCheck p) headers =
      Except.ok (if p origin then setCorsGrant origin headers else headers) := by
  cases hp : p origin <;>
    simp [cors_headers, pureCheck, hp, Bind.bind, Except.bind, Pure.pure, Except.pure]

/-- One-step reduction of `_webio_view` for non-`OPTIONS` requests under
a never-raising origin predicate. -/
theorem webio_view_pure_eq (p : String → Bool) (ses : Int) (tok : String)
    (sess : Session) (now : Int) (req : Request) (st : ServerState)
    (hm : req.method ≠ Method.OPTIONS) :
    _webio_view (pureCheck p) ses tok sess now req st =
      (if req.testArg = true then
        (st, noEffects, Outcome.ok ⟨200, RespBody.text "ok", requestHeaders p req⟩)
      else
        match req.sessionHeader with
        | none =>
          handleSession ses now req
            (dictSet (requestHeaders p req) "webio-session-id" (HVal.str tok)) tok sess
            ⟨dictSet st.sessions tok sess, lruSet st.expire tok now, st.lastCheckTs⟩
        | some t =>
          if t = "" then
            handleSession ses now req
              (dictSet (requestHeaders p req) "webio-session-id" (HVal.str tok)) tok sess
              ⟨dictSet st.sessions tok sess, lruSet st.expire tok now, st.lastCheckTs⟩
          else
            match lookupKey st.sessions t with
            | none =>
              (st, noEffects, Outcome.ok ⟨200, RespBody.json [closeSessionCmd], []⟩)
            | some s => handleSession ses now req (requestHeaders p req) t s st) := by
  rw [_webio_view, if_neg hm]
  rcases req with ⟨m, origin, ta, sh, body⟩
  rcases origin with _ | o
  · rfl
  · simp only [requestHeaders]
    by_cases ho : o = ""
    · simp only [if_pos ho]
    · simp only [if_neg ho, cors_headers_pure]

theorem handleSession_ok (sesec now : Int) (req : Request)
    (headers : List (String × HVal)) (sid : String) (sess : Session)
    (st : ServerState) (resp : HttpResponse)
    (h : (handleSession sesec now req headers sid sess st).2.2 = Outcome.ok resp) :
    resp = ⟨200, RespBody.json sess.commands, headers⟩ := by
  simp only [handleSession] at h
  rcases hrs : runSweepIfDue sesec now st with ⟨st1, flag⟩
  rw [hrs] at h
  cases flag
  · cases h
  · by_cases hcl : sess.closed = true
    · rw [hcl] at h
      simp only [if_true] at h
      rcases hrm : _remove_webio_session st1 sid with ⟨st2, flag2⟩
      rw [hrm] at h
      cases flag2
      · cases h
      · cases h
        rfl
    · rw [Bool.not_eq_true] at hcl
      rw [hcl] at h
      simp only [Bool.false_eq_true, if_false] at h
      cases h
      rfl

theorem handleSession_effects (sesec now : Int) (req : Request)
    (headers : List (String × HVal)) (sid : String) (sess : Session)
    (st : ServerState) :
    (handleSession sesec now req headers sid sess st).2.1 =
      (if req.method = Method.POST then ⟨[(sess.sid, req.body)], WAIT_MS_ON_POST⟩
       else noEffects) := by
  simp only [handleSession]
  rcases hrs : runSweepIfDue sesec now st with ⟨st1, flag⟩
  cases flag
  · rfl
  · by_cases hcl : sess.closed = true
    · rw [hcl]
      simp only [if_true]
      rcases hrm : _remove_webio_session st1 sid with ⟨st2, flag2⟩
      cases flag2 <;> rfl
    · rw [Bool.not_eq_true] at hcl
      rw [hcl]
      rfl

theorem handleSession_not_closed (sesec now : Int) (req : Request)
    (headers : List (String × HVal)) (sid : String) (sess : Session)
    (st : ServerState) (hcl : sess.closed = false)
    (hflag : (runSweepIfDue sesec now st).2 = true) :
    (handleSession sesec now req headers sid sess st).1 = (runSweepIfDue sesec now st).1 ∧
    (handleSession sesec now req headers sid sess st).2.2 =
      Outcome.ok ⟨200, RespBody.json sess.commands, headers⟩ := by
  simp only [handleSession]
  rcases hrs : runSweepIfDue sesec now st with ⟨st1, flag⟩
  rw [hrs] at hflag
  simp only at hflag
  subst hflag
  rw [hcl]
  exact ⟨rfl, rfl⟩

theorem runSweep_fresh_kept (sesec now : Int) (st : ServerState) (t : String)
    (ts : Int) (hwf : StateWF st)
    (hl : lookupKey st.expire t = some ts) (hfresh : now - ts < sesec) :
    lookupKey (runSweepIfDue sesec now st).1.expire t = some ts ∧
    lookupKey (runSweepIfDue sesec now st).1.sessions t = lookupKey st.sessions t := by
  obtain ⟨h1, h2, h3⟩ := hwf
  rw [runSweepIfDue]
  by_cases hdue : now - st.lastCheckTs > REMOVE_EXPIRED_SESSIONS_INTERVAL
  · rw [if_pos hdue]
    obtain ⟨hflag, _, _, _⟩ := sweep_preserves_pair st.expire st.sessions sesec now h1 h2 h3
    rw [hflag, if_pos rfl]
    exact ⟨sweep_expire_fresh st.expire st.sessions sesec now t ts h2 hl hfresh,
      sweep_sessions_fresh st.expire st.sessions sesec now t ts h2 hl hfresh⟩
  · rw [if_neg hdue]
    exact ⟨hl, rfl⟩

theorem runSweep_sessions_mono (sesec now : Int) (st : ServerState) (t : String)
    (h : containsKey (runSweepIfDue sesec now st).1.sessions t = true) :
    containsKey st.sessions t = true := by
  rw [runSweepIfDue] at h
  by_cases hdue : now - st.lastCheckTs > REMOVE_EXPIRED_SESSIONS_INTERVAL
  · rw [if_pos hdue] at h
    by_cases hfl : (_remove_expired_sessions st.expire st.sessions sesec now).2.2 = true
    · rw [hfl, if_pos rfl] at h
      exact sweep_sessions_contains_mono st.expire st.sessions sesec now t h
    · rw [Bool.not_eq_true] at hfl
      rw [hfl] at h
      simp only [Bool.false_eq_true, if_false] at h
      exact sweep_sessions_contains_mono st.expire st.sessions sesec now t h
  · rw [if_neg hdue] at h
    exact h

theorem cors_headers_default_none (origin : String)
    (headers : List (String × HVal)) :
    cors_headers origin (make_check_origin none none) headers = Except.error () := by
  simp [cors_headers, make_check_origin, default_check_origin, Bind.bind, Except.bind]

theorem insert_pair_WF (st : ServerState) (tok : String) (sess : Session)
    (now : Int) (h : StateWF st) :
    StateWF ⟨dictSet st.sessions tok sess, lruSet st.expire tok now, st.lastCheckTs⟩ :=
  ⟨nodup_keys_dictSet _ _ _ h.1, nodup_keys_lruSet _ _ _ h.2.1,
   fun t => by
    show containsKey (dictSet st.sessions tok sess) t
      = containsKey (lruSet st.expire tok now) t
    rw [containsKey_dictSet, containsKey_lruSet, h.2.2 t]⟩

theorem runSweep_immediate_recheck (sesec now : Int) (st : ServerState)
    (hflag : (runSweepIfDue sesec now st).2 = true) :
    ¬(now - (runSweepIfDue sesec now st).1.lastCheckTs >
        REMOVE_EXPIRED_SESSIONS_INTERVAL) := by
  rw [runSweepIfDue] at hflag ⊢
  by_cases hdue : now - st.lastCheckTs > REMOVE_EXPIRED_SESSIONS_INTERVAL
  · rw [if_pos hdue] at hflag ⊢
    by_cases hfl : (_remove_expired_sessions st.expire st.sessions sesec now).2.2 = true
    · rw [hfl, if_pos rfl]
      show ¬(now - now > REMOVE_EXPIRED_SESSIONS_INTERVAL)
      rw [REMOVE_EXPIRED_SESSIONS_INTERVAL]
      omega
    · rw [Bool.not_eq_true] at hfl
      rw [hfl] at hflag
      simp only [Bool.false_eq_true, if_false] at hflag
  · rw [if_neg hdue]
    exact hdue

end ViewLemmas

section Claims

/-- C7: for every origin and predicate, the CORS negotiator returns, on
approval, exactly `Access-Control-Allow-Origin` set to that origin,
methods restricted to `GET, POST`, allowed headers restricted to
`content-type, webio-session-id`, the session-token header exposed, and
a preflight cache lifetime of 24 hours; on rejection it returns the
input header set unchanged. -/
theorem C7_cors_negotiator (origin : String) (p : String → Bool) :
    (p origin = true →
      cors_headers origin (pureCheck p) [] = Except.ok
        [("Access-Control-Allow-Origin", HVal.str origin),
         ("Access-Control-Allow-Methods", HVal.str "GET, POST"),
         ("Access-Control-Allow-Headers", HVal.str "content-type, webio-session-id"),
         ("Access-Control-Expose-Headers", HVal.str "webio-session-id"),
         ("Access-Control-Max-Age", HVal.num (24 * 60 * 60))]) ∧
    (p origin = false →
      ∀ headers, cors_headers origin (pureCheck p) headers = Except.ok headers) := by
  constructor
  · intro hp
    rw [cors_headers_pure, if_pos hp]
    rfl
  · intro hp headers
    rw [cors_headers_pure, if_neg (by simp [hp])]

/-- Witness for C7 at the spec scenario: allow-list
`["https://*.example.com"]` approves `https://a.example.com` and
rejects `https://evil.com`. -/
theorem C7_cors_negotiator_witness :
    (fnmatch "https://a.example.com" "https://*.example.com" = true ∧
      cors_headers "https://a.example.com"
        (pureCheck (fun o => fnmatch o "https://*.example.com")) [] = Except.ok
        [("Access-Control-Allow-Origin", HVal.str "https://a.example.com"),
         ("Access-Control-Allow-Methods", HVal.str "GET, POST"),
         ("Access-Control-Allow-Headers", HVal.str "content-type, webio-session-id"),
         ("Access-Control-Expose-Headers", HVal.str "webio-session-id"),
         ("Access-Control-Max-Age", HVal.num (24 * 60 * 60))]) ∧
    (fnmatch "https://evil.com" "https://*.example.com" = false ∧
      cors_headers "https://evil.com"
        (pureCheck (fun o => fnmatch o "https://*.example.com"))
        [("X", HVal.str "y")] = Except.ok [("X", HVal.str "y")]) :=
  ⟨⟨by decide,
    (C7_cors_negotiator "https://a.example.com"
      (fun o => fnmatch o "https://*.example.com")).1 (by decide)⟩,
   ⟨by decide,
    (C7_cors_negotiator "https://evil.com"
      (fun o => fnmatch o "https://*.example.com")).2 (by decide) _⟩⟩

/-- C5 counterexample: `_remove_webio_session` on a token that is not
present raises `KeyError` (error flag) instead of succeeding as a
no-op, so the remove operation is not idempotent as claimed. -/
theorem C5_remove_not_idempotent_cex :
    _remove_webio_session ⟨[], [], 0⟩ "T1" = (⟨[], [], 0⟩, false) := by
  decide

/-- C5 amended: `_remove_webio_session` deletes both the SessionHandle
and the ActivityRecord when the token is present in both dicts, but for
an absent token it raises `KeyError` rather than being a no-op. -/
theorem C5_remove_amended (st : ServerState) (t : String) :
    (containsKey st.sessions t = true → containsKey st.expire t = true →
      _remove_webio_session st t =
        (⟨eraseKey st.sessions t, eraseKey st.expire t, st.lastCheckTs⟩, true)) ∧
    (containsKey st.sessions t = false →
      _remove_webio_session st t = (st, false)) := by
  constructor
  · intro hs he
    simp only [_remove_webio_session, delKey, if_pos hs, if_pos he]
  · intro hs
    simp only [_remove_webio_session, delKey, hs, Bool.false_eq_true, if_false]

/-- Witness for C5's amended claim: removal of a present token deletes
both entries; removal of an absent token errors. -/
theorem C5_remove_amended_witness :
    (containsKey [("A", (⟨1, false, []⟩ : Session))] "A" = true ∧
      containsKey [("A", (5 : Int))] "A" = true ∧
      _remove_webio_session ⟨[("A", ⟨1, false, []⟩)], [("A", 5)], 0⟩ "A" =
        (⟨eraseKey [("A", ⟨1, false, []⟩)] "A", eraseKey [("A", 5)] "A", 0⟩, true)) ∧
    (containsKey ([] : List (String × Session)) "B" = false ∧
      _remove_webio_session ⟨[], [], 7⟩ "B" = (⟨[], [], 7⟩, false)) :=
  ⟨⟨by decide, by decide,
    (C5_remove_amended ⟨[("A", ⟨1, false, []⟩)], [("A", 5)], 0⟩ "A").1
      (by decide) (by decide)⟩,
   ⟨by decide,
    (C5_remove_amended ⟨[], [], 7⟩ "B").2 (by decide)⟩⟩

/-- C1 (refuting the claimed touch, spec scenario): a resume request for
`T1` at `t = 50` leaves the module state untouched — in particular the
ActivityRecord timestamp stays at its creation time 0 because the
resume branch of `_webio_view` never writes to `_webio_expire` — so the
sweep at `t = 70` with threshold 60 evicts `T1` (apparent idle 70 s)
even though the last request was only 20 s earlier. -/
theorem C1_resume_never_touches :
    (_webio_view (pureCheck (fun _ => false)) 60 "N" ⟨2, false, []⟩ 50
        ⟨Method.GET, none, false, some "T1", ""⟩
        ⟨[("T1", ⟨1, false, []⟩)], [("T1", 0)], 50⟩).1
      = ⟨[("T1", ⟨1, false, []⟩)], [("T1", 0)], 50⟩ ∧
    (_webio_view (pureCheck (fun _ => false)) 60 "N" ⟨2, false, []⟩ 50
        ⟨Method.GET, none, false, some "T1", ""⟩
        ⟨[("T1", ⟨1, false, []⟩)], [("T1", 0)], 50⟩).2.2
      = Outcome.ok ⟨200, RespBody.json [], []⟩ ∧
    _remove_expired_sessions [("T1", (0 : Int))] [("T1", ⟨1, false, []⟩)] 60 70
      = ([], [], true) := by
  decide

/-- C10: with `allowed_origins` and `check_origin` both left `None`, the
default origin predicate iterates over `None` and raises `TypeError`:
every `OPTIONS` request, and every request carrying a non-empty
`Origin` header, ends in an exception instead of a response. -/
theorem C10_default_predicate_raises (ses : Int) (tok : String) (sess : Session)
    (now : Int) (req : Request) (st : ServerState) :
    (req.method = Method.OPTIONS →
      webio_view ses none none tok sess now req st = (st, noEffects, Outcome.exn)) ∧
    (∀ o, req.origin = some o → o ≠ "" →
      webio_view ses none none tok sess now req st = (st, noEffects, Outcome.exn)) := by
  constructor
  · intro hm
    rw [webio_view, _webio_view, if_pos hm, cors_headers_default_none]
  · intro o ho hne
    by_cases hm : req.method = Method.OPTIONS
    · rw [webio_view, _webio_view, if_pos hm, cors_headers_default_none]
    · rw [webio_view, _webio_view, if_neg hm, ho]
      simp only [if_neg hne, cors_headers_default_none]

/-- Witness for C10: an `OPTIONS` request without an `Origin` header and
a `GET` request with `Origin: https://a.example.com` both raise under
the default configuration. -/
theorem C10_default_predicate_raises_witness :
    webio_view 60 none none "T" ⟨1, false, []⟩ 0
      ⟨Method.OPTIONS, none, false, none, ""⟩ ⟨[], [], 0⟩ =
      (⟨[], [], 0⟩, noEffects, Outcome.exn) ∧
    webio_view 60 none none "T" ⟨1, false, []⟩ 0
      ⟨Method.GET, some "https://a.example.com", false, none, ""⟩ ⟨[], [], 0⟩ =
      (⟨[], [], 0⟩, noEffects, Outcome.exn) :=
  ⟨(C10_default_predicate_raises 60 "T" ⟨1, false, []⟩ 0
      ⟨Method.OPTIONS, none, false, none, ""⟩ ⟨[], [], 0⟩).1 rfl,
   (C10_default_predicate_raises 60 "T" ⟨1, false, []⟩ 0
      ⟨Method.GET, some "https://a.example.com", false, none, ""⟩ ⟨[], [], 0⟩).2
      "https://a.example.com" rfl (by decide)⟩

/-- C3: a non-`OPTIONS`, non-probe request carrying an unknown token
returns HTTP 200 with body exactly `[{"command": "close_session"}]`,
leaves the module state exactly as it was (no Registry entry, no
ActivityRecord is created) and forwards nothing to any session. -/
theorem C3_stale_token (p : String → Bool) (ses : Int) (tok : String)
    (sess : Session) (now : Int) (req : Request) (st : ServerState) (t : String)
    (hm : req.method ≠ Method.OPTIONS) (hta : req.testArg = false)
    (hh : req.sessionHeader = some t) (hne : t ≠ "")
    (habs : lookupKey st.sessions t = none) :
    _webio_view (pureCheck p) ses tok sess now req st =
      (st, noEffects, Outcome.ok ⟨200, RespBody.json [closeSessionCmd], []⟩) := by
  rw [webio_view_pure_eq p ses tok sess now req st hm,
    if_neg (by simp [hta]), hh]
  simp only [if_neg hne, habs]

/-- Witness for C3: an unknown token `GONE` on a `POST` with a known
other session present. -/
theorem C3_stale_token_witness :
    ((⟨Method.POST, none, false, some "GONE", "ev"⟩ : Request).method ≠
        Method.OPTIONS ∧
      lookupKey [("A", (⟨1, false, []⟩ : Session))] "GONE" = none) ∧
    _webio_view (pureCheck (fun _ => true)) 60 "N" ⟨9, false, []⟩ 100
      ⟨Method.POST, none, false, some "GONE", "ev"⟩
      ⟨[("A", ⟨1, false, []⟩)], [("A", 50)], 90⟩ =
      (⟨[("A", ⟨1, false, []⟩)], [("A", 50)], 90⟩, noEffects,
        Outcome.ok ⟨200, RespBody.json [closeSessionCmd], []⟩) :=
  ⟨⟨by decide, by decide⟩,
   C3_stale_token (fun _ => true) 60 "N" ⟨9, false, []⟩ 100
     ⟨Method.POST, none, false, some "GONE", "ev"⟩
     ⟨[("A", ⟨1, false, []⟩)], [("A", 50)], 90⟩ "GONE"
     (by decide) rfl rfl (by decide) (by decide)⟩

/-- C4 counterexample: for a stale-token request whose `Origin` header
is approved, the computed CORS grant is non-empty, yet the response the
stale-token branch returns carries no headers at all — so not every
branch attaches the computed CORS headers. -/
theorem C4_stale_drops_headers_cex :
    (_webio_view (pureCheck (fun _ => true)) 60 "N" ⟨1, false, []⟩ 0
        ⟨Method.GET, some "https://a.example.com", false, some "GONE", ""⟩
        ⟨[], [], 0⟩).2.2
      = Outcome.ok ⟨200, RespBody.json [closeSessionCmd], []⟩ ∧
    cors_headers "https://a.example.com" (pureCheck (fun _ => true)) [] =
      Except.ok
        [("Access-Control-Allow-Origin", HVal.str "https://a.example.com"),
         ("Access-Control-Allow-Methods", HVal.str "GET, POST"),
         ("Access-Control-Allow-Headers", HVal.str "content-type, webio-session-id"),
         ("Access-Control-Expose-Headers", HVal.str "webio-session-id"),
         ("Access-Control-Max-Age", HVal.num 86400)] := by
  decide

/-- C4 amended: every branch of the dispatcher that produces a response
attaches the computed CORS and session-token headers — except the
stale-token branch, which returns the close-session directive with no
headers at all (it returns before the header-attaching loop). -/
theorem C4_headers_amended (p : String → Bool) (ses : Int) (tok : String)
    (sess : Session) (now : Int) (req : Request) (st : ServerState) :
    (req.method = Method.OPTIONS →
      (_webio_view (pureCheck p) ses tok sess now req st).2.2 =
        Outcome.ok ⟨204, RespBody.text "",
          if p (req.origin.getD "") then setCorsGrant (req.origin.getD "") []
          else []⟩) ∧
    (req.method ≠ Method.OPTIONS → req.testArg = true →
      (_webio_view (pureCheck p) ses tok sess now req st).2.2 =
        Outcome.ok ⟨200, RespBody.text "ok", requestHeaders p req⟩) ∧
    (req.method ≠ Method.OPTIONS → req.testArg = false →
      (req.sessionHeader = none ∨ req.sessionHeader = some "") →
      ∀ resp, (_webio_view (pureCheck p) ses tok sess now req st).2.2 =
          Outcome.ok resp →
        resp.headers =
          dictSet (requestHeaders p req) "webio-session-id" (HVal.str tok)) ∧
    (req.method ≠ Method.OPTIONS → req.testArg = false →
      ∀ t s, req.sessionHeader = some t → t ≠ "" →
      lookupKey st.sessions t = some s →
      ∀ resp, (_webio_view (pureCheck p) ses tok sess now req st).2.2 =
          Outcome.ok resp →
        resp.headers = requestHeaders p req) ∧
    (req.method ≠ Method.OPTIONS → req.testArg = false →
      ∀ t, req.sessionHeader = some t → t ≠ "" →
      lookupKey st.sessions t = none →
      (_webio_view (pureCheck p) ses tok sess now req st).2.2 =
        Outcome.ok ⟨200, RespBody.json [closeSessionCmd], []⟩) := by
  refine ⟨?_, ?_, ?_, ?_, ?_⟩
  · intro hm
    rw [_webio_view, if_pos hm, cors_headers_pure]
  · intro hm hta
    rw [webio_view_pure_eq p ses tok sess now req st hm, if_pos hta]
  · intro hm hta hh resp hresp
    rw [webio_view_pure_eq p ses tok sess now req st hm,
      if_neg (by simp [hta])] at hresp
    rcases hh with hh | hh <;> rw [hh] at hresp
    · rw [handleSession_ok _ _ _ _ _ _ _ _ hresp]
    · rw [handleSession_ok _ _ _ _ _ _ _ _
        (show (handleSession ses now req
            (dictSet (requestHeaders p req) "webio-session-id" (HVal.str tok)) tok sess
            ⟨dictSet st.sessions tok sess, lruSet st.expire tok now,
             st.lastCheckTs⟩).2.2 = Outcome.ok resp from hresp)]
  · intro hm hta t s hh hne hl resp hresp
    rw [webio_view_pure_eq p ses tok sess now req st hm,
      if_neg (by simp [hta]), hh] at hresp
    simp only [if_neg hne, hl] at hresp
    rw [handleSession_ok _ _ _ _ _ _ _ _ hresp]
  · intro hm hta t hh hne hl
    rw [webio_view_pure_eq p ses tok sess now req st hm,
      if_neg (by simp [hta]), hh]
    simp only [if_neg hne, hl]

/-- Witness for C4's amended claim: one request per branch — preflight,
probe, new session, resume, stale token — with `Origin:
https://a.example.com` approved by a constant-true predicate. -/
theorem C4_headers_amended_witness :
    (_webio_view (pureCheck (fun _ => true)) 60 "N" ⟨7, false, ["c"]⟩ 5
        ⟨Method.OPTIONS, some "https://a.example.com", false, none, ""⟩
        ⟨[], [], 0⟩).2.2 =
      Outcome.ok ⟨204, RespBody.text "",
        setCorsGrant "https://a.example.com" []⟩ ∧
    (_webio_view (pureCheck (fun _ => true)) 60 "N" ⟨7, false, ["c"]⟩ 5
        ⟨Method.GET, some "https://a.example.com", true, none, ""⟩
        ⟨[], [], 0⟩).2.2 =
      Outcome.ok ⟨200, RespBody.text "ok",
        requestHeaders (fun _ => true)
          ⟨Method.GET, some "https://a.example.com", true, none, ""⟩⟩ ∧
    (∀ resp, (_webio_view (pureCheck (fun _ => true)) 60 "N" ⟨7, false, ["c"]⟩ 5
        ⟨Method.GET, some "https://a.example.com", false, none, ""⟩
        ⟨[], [], 0⟩).2.2 = Outcome.ok resp →
      resp.headers =
        dictSet (requestHeaders (fun _ => true)
            ⟨Method.GET, some "https://a.example.com", false, none, ""⟩)
          "webio-session-id" (HVal.str "N")) ∧
    (∀ resp, (_webio_view (pureCheck (fun _ => true)) 60 "N" ⟨7, false, ["c"]⟩ 5
        ⟨Method.GET, some "https://a.example.com", false, some "A", ""⟩
        ⟨[("A", ⟨1, false, []⟩)], [("A", 1)], 0⟩).2.2 = Outcome.ok resp →
      resp.headers = requestHeaders (fun _ => true)
        ⟨Method.GET, some "https://a.example.com", false, some "A", ""⟩) ∧
    (_webio_view (pureCheck (fun _ => true)) 60 "N" ⟨7, false, ["c"]⟩ 5
        ⟨Method.GET, some "https://a.example.com", false, some "GONE", ""⟩
        ⟨[], [], 0⟩).2.2 =
      Outcome.ok ⟨200, RespBody.json [closeSessionCmd], []⟩ :=
  ⟨(C4_headers_amended (fun _ => true) 60 "N" ⟨7, false, ["c"]⟩ 5
      ⟨Method.OPTIONS, some "https://a.example.com", false, none, ""⟩
      ⟨[], [], 0⟩).1 rfl,
   (C4_headers_amended (fun _ => true) 60 "N" ⟨7, false, ["c"]⟩ 5
      ⟨Method.GET, some "https://a.example.com", true, none, ""⟩
      ⟨[], [], 0⟩).2.1 (by decide) rfl,
   fun resp => (C4_headers_amended (fun _ => true) 60 "N" ⟨7, false, ["c"]⟩ 5
      ⟨Method.GET, some "https://a.example.com", false, none, ""⟩
      ⟨[], [], 0⟩).2.2.1 (by decide) rfl (Or.inl rfl) resp,
   fun resp => (C4_headers_amended (fun _ => true) 60 "N" ⟨7, false, ["c"]⟩ 5
      ⟨Method.GET, some "https://a.example.com", false, some "A", ""⟩
      ⟨[("A", ⟨1, false, []⟩)], [("A", 1)], 0⟩).2.2.2.1 (by decide) rfl
      "A" ⟨1, false, []⟩ rfl (by decide) (by decide) resp,
   (C4_headers_amended (fun _ => true) 60 "N" ⟨7, false, ["c"]⟩ 5
      ⟨Method.GET, some "https://a.example.com", false, some "GONE", ""⟩
      ⟨[], [], 0⟩).2.2.2.2 (by decide) rfl "GONE" rfl (by decide) (by decide)⟩

/-- C9: on a `POST` reaching a session (new or resumed), the decoded
client event is forwarded to that session and the worker sleeps the
fixed `WAIT_MS_ON_POST = 100` ms before collecting output; on a `GET`
no event is forwarded to any session, in any branch. -/
theorem C9_post_forwarding (p : String → Bool) (ses : Int) (tok : String)
    (sess : Session) (now : Int) (req : Request) (st : ServerState)
    (hm : req.method ≠ Method.OPTIONS) :
    (req.testArg = false → (req.sessionHeader = none ∨ req.sessionHeader = some "") →
      (_webio_view (pureCheck p) ses tok sess now req st).2.1 =
        (if req.method = Method.POST then
          ⟨[(sess.sid, req.body)], WAIT_MS_ON_POST⟩ else noEffects)) ∧
    (req.testArg = false → ∀ t s, req.sessionHeader = some t → t ≠ "" →
      lookupKey st.sessions t = some s →
      (_webio_view (pureCheck p) ses tok sess now req st).2.1 =
        (if req.method = Method.POST then
          ⟨[(s.sid, req.body)], WAIT_MS_ON_POST⟩ else noEffects)) ∧
    (req.method = Method.GET →
      (_webio_view (pureCheck p) ses tok sess now req st).2.1.forwarded = []) ∧
    WAIT_MS_ON_POST = 100 := by
  rw [webio_view_pure_eq p ses tok sess now req st hm]
  refine ⟨?_, ?_, ?_, rfl⟩
  · intro hta hh
    rw [if_neg (by simp [hta])]
    rcases hh with hh | hh <;> rw [hh] <;>
      exact handleSession_effects _ _ _ _ _ _ _
  · intro hta t s hh hne hl
    rw [if_neg (by simp [hta]), hh]
    simp only [if_neg hne, hl]
    exact handleSession_effects _ _ _ _ _ _ _
  · intro hget
    have hnp : req.method ≠ Method.POST := by
      rw [hget]
      intro hc
      cases hc
    by_cases hta : req.testArg = true
    · rw [if_pos hta]
      rfl
    · rw [if_neg hta]
      rcases hh : req.sessionHeader with _ | t
      · rw [handleSession_effects, if_neg hnp]
        rfl
      · by_cases hne : t = ""
        · subst hne
          have he := handleSession_effects ses now req
            (dictSet (requestHeaders p req) "webio-session-id" (HVal.str tok)) tok sess
            ⟨dictSet st.sessions tok sess, lruSet st.expire tok now, st.lastCheckTs⟩
          rw [if_neg hnp] at he
          show (handleSession ses now req
            (dictSet (requestHeaders p req) "webio-session-id" (HVal.str tok)) tok sess
            ⟨dictSet st.sessions tok sess, lruSet st.expire tok now,
             st.lastCheckTs⟩).2.1.forwarded = []
          rw [he]
          rfl
        · simp only [if_neg hne]
          rcases hl : lookupKey st.sessions t with _ | s
          · rfl
          · rw [handleSession_effects, if_neg hnp]
            rfl

/-- Witness for C9: a `POST` with body `ev` to a new session (sid 7)
forwards exactly `(7, ev)` and sleeps 100 ms; a `GET` resume forwards
nothing. -/
theorem C9_post_forwarding_witness :
    (_webio_view (pureCheck (fun _ => true)) 60 "N" ⟨7, false, []⟩ 5
        ⟨Method.POST, none, false, none, "ev"⟩ ⟨[], [], 0⟩).2.1 =
      (⟨[(7, "ev")], 100⟩ : Effects) ∧
    (_webio_view (pureCheck (fun _ => true)) 60 "N" ⟨7, false, []⟩ 5
        ⟨Method.GET, none, false, some "A", ""⟩
        ⟨[("A", ⟨1, false, []⟩)], [("A", 1)], 0⟩).2.1.forwarded = [] :=
  ⟨(C9_post_forwarding (fun _ => true) 60 "N" ⟨7, false, []⟩ 5
      ⟨Method.POST, none, false, none, "ev"⟩ ⟨[], [], 0⟩ (by decide)).1
      rfl (Or.inl rfl),
   (C9_post_forwarding (fun _ => true) 60 "N" ⟨7, false, []⟩ 5
      ⟨Method.GET, none, false, some "A", ""⟩
      ⟨[("A", ⟨1, false, []⟩)], [("A", 1)], 0⟩ (by decide)).2.2.1 rfl⟩

theorem view_session_branch_WF (ses : Int) (tok : String)
    (sess : Session) (now : Int) (req : Request) (st : ServerState)
    (headers : List (String × HVal)) (h : StateWF st) :
    StateWF ((if req.testArg = true then
        (st, noEffects, Outcome.ok ⟨200, RespBody.text "ok", headers⟩)
      else
        match req.sessionHeader with
        | none =>
          handleSession ses now req
            (dictSet headers "webio-session-id" (HVal.str tok)) tok sess
            ⟨dictSet st.sessions tok sess, lruSet st.expire tok now, st.lastCheckTs⟩
        | some t =>
          if t = "" then
            handleSession ses now req
              (dictSet headers "webio-session-id" (HVal.str tok)) tok sess
              ⟨dictSet st.sessions tok sess, lruSet st.expire tok now, st.lastCheckTs⟩
          else
            match lookupKey st.sessions t with
            | none =>
              (st, noEffects, Outcome.ok ⟨200, RespBody.json [closeSessionCmd], []⟩)
            | some s => handleSession ses now req headers t s st).1) := by
  by_cases hta : req.testArg = true
  · rw [if_pos hta]
    exact h
  · rw [if_neg hta]
    rcases hsh : req.sessionHeader with _ | t
    · exact handleSession_WF _ _ _ _ _ _ _ (insert_pair_WF st tok sess now h)
    · by_cases hne : t = ""
      · subst hne
        exact handleSession_WF _ _ _ _ _ _ _ (insert_pair_WF st tok sess now h)
      · simp only [if_neg hne]
        rcases hl : lookupKey st.sessions t with _ | s
        · exact h
        · exact handleSession_WF _ _ _ _ _ _ _ h

/-- C8: for every token, an ActivityRecord exists in the Recency
Tracker iff a SessionHandle with the same token exists in the Registry:
every branch of `_webio_view` — session creation, the expiry sweep,
removal after close, and all error/early-return paths — preserves this
pairing invariant (together with key uniqueness), for an arbitrary
origin predicate, so it holds after every sequentially processed
request. -/
theorem C8_registry_tracker_invariant (check : OriginCheck) (ses : Int)
    (tok : String) (sess : Session) (now : Int) (req : Request)
    (st : ServerState) (h : StateWF st) :
    StateWF (_webio_view check ses tok sess now req st).1 := by
  rw [_webio_view]
  by_cases hm : req.method = Method.OPTIONS
  · rw [if_pos hm]
    rcases hE : cors_headers (req.origin.getD "") check [] with e | headers
    · exact h
    · exact h
  · rw [if_neg hm]
    rcases hor : req.origin with _ | o
    · exact view_session_branch_WF ses tok sess now req st [] h
    · by_cases ho : o = ""
      · simp only [if_pos ho]
        exact view_session_branch_WF ses tok sess now req st [] h
      · simp only [if_neg ho]
        rcases hE : cors_headers o check [] with e | headers
        · exact h
        · exact view_session_branch_WF ses tok sess now req st headers h

/-- Witness for C8: a resume `POST` that triggers the sweep and then
removes the session (it reports closed), starting from a well-formed
two-session state. -/
theorem C8_registry_tracker_invariant_witness :
    StateWF ⟨[("A", ⟨1, true, ["z"]⟩), ("B", ⟨2, false, []⟩)],
      [("B", 2), ("A", 35)], 0⟩ ∧
    StateWF (_webio_view (pureCheck (fun _ => true)) 30 "N" ⟨9, false, []⟩ 40
      ⟨Method.POST, some "https://x", false, some "A", "e"⟩
      ⟨[("A", ⟨1, true, ["z"]⟩), ("B", ⟨2, false, []⟩)],
       [("B", 2), ("A", 35)], 0⟩).1 :=
  have hwf : StateWF ⟨[("A", ⟨1, true, ["z"]⟩), ("B", ⟨2, false, []⟩)],
      [("B", 2), ("A", 35)], 0⟩ :=
    ⟨by simp, by simp, fun t => by
      show (("A" == t) || (("B" == t) || false))
        = (("B" == t) || (("A" == t) || false))
      by_cases hA : "A" = t <;> by_cases hB : "B" = t <;>
        simp [hA, hB, Bool.or_comm]⟩
  ⟨hwf, C8_registry_tracker_invariant (pureCheck (fun _ => true)) 30 "N"
    ⟨9, false, []⟩ 40 ⟨Method.POST, some "https://x", false, some "A", "e"⟩
    ⟨[("A", ⟨1, true, ["z"]⟩), ("B", ⟨2, false, []⟩)], [("B", 2), ("A", 35)], 0⟩
    hwf⟩

/-- C2: assuming the tracker is in recency order (and dict keys are
unique, with every tracked token having a registry entry), the sweep
returns normally, keeps exactly the tracker entries whose idle duration
`now - lastActive` is strictly below the threshold (stopping at the
first fresh record and reinserting it), and removes from the registry
exactly the sessions of expired tokens — never one whose idle duration
is below the threshold. -/
theorem C2_sweep_exact (expire : List (String × Int))
    (sessions : List (String × Session)) (thresh now : Int)
    (hsort : tsSorted expire = true)
    (hnd : (expire.map Prod.fst).Nodup)
    (hsub : ∀ q ∈ expire, containsKey sessions q.1 = true) :
    _remove_expired_sessions expire sessions thresh now =
      (expire.filter (fun q => decide (now - q.2 < thresh)),
       sessions.filter (fun q => !(expiredIn expire thresh now q.1)),
       true) := by
  induction expire generalizing sessions with
  | nil =>
    simp only [_remove_expired_sessions, List.filter_nil]
    rw [show (fun q : String × Session => !(expiredIn [] thresh now q.1))
        = fun _ => true from funext (fun q => by simp [expiredIn]),
      List.filter_true]
  | cons hd rest ih =>
    obtain ⟨sid, ts⟩ := hd
    simp only [_remove_expired_sessions]
    by_cases hfr : now - ts < thresh
    · rw [if_pos hfr,
        sweep_fresh_head _ _ _ (nodup_head_not_contains (sid, ts) rest hnd)]
      have hallfresh : ∀ q ∈ (sid, ts) :: rest, now - q.2 < thresh := by
        intro q hq
        rcases List.mem_cons.mp hq with rfl | hq'
        · exact hfr
        · have := tsSorted_head_le (sid, ts) rest hsort q hq'
          omega
      rw [List.filter_eq_self.mpr
        (fun q hq => by simpa using hallfresh q hq)]
      rw [List.filter_eq_self.mpr (fun q hq => ?_)]
      have hnone : expiredIn ((sid, ts) :: rest) thresh now q.1 = false := by
        rw [expiredIn, List.any_eq_false]
        intro p hp
        have := hallfresh p hp
        simp only [Bool.and_eq_true, decide_eq_true_iff, not_and]
        intro _
        omega
      simp [hnone]
    · rw [if_neg hfr]
      have hexp : thresh ≤ now - ts := by omega
      have hc := hsub (sid, ts) (List.mem_cons_self _ _)
      cases hdel : delKey sessions sid with
      | none =>
        rw [delKey, if_pos hc] at hdel
        cases hdel
      | some sessions' =>
        rw [delKey, if_pos hc] at hdel
        cases hdel
        show _remove_expired_sessions rest (eraseKey sessions sid) thresh now =
          (((sid, ts) :: rest).filter (fun q => decide (now - q.2 < thresh)),
           sessions.filter
             (fun q => !(expiredIn ((sid, ts) :: rest) thresh now q.1)),
           true)
        rw [ih (eraseKey sessions sid) (tsSorted_tail _ _ hsort)
          (by rw [List.map_cons, List.nodup_cons] at hnd; exact hnd.2)
          (fun q hq => by
            rw [containsKey_eraseKey]
            have hqs : q.1 ≠ sid := by
              intro he
              rw [List.map_cons, List.nodup_cons] at hnd
              have hmem : q.1 ∈ rest.map Prod.fst :=
                List.mem_map_of_mem Prod.fst hq
              rw [he] at hmem
              exact hnd.1 hmem
            rw [hsub q (List.mem_cons_of_mem _ hq)]
            simp [hqs])]
        congr 1
        · rw [List.filter_cons]
          rw [show (decide (now - ts < thresh)) = false from by
            simp [hfr]]
          rfl
        congr 1
        rw [show eraseKey sessions sid
            = sessions.filter (fun q => q.1 != sid) from rfl,
          List.filter_filter]
        apply List.filter_congr
        intro q hq
        have hdts : decide (thresh ≤ now - ts) = true := by simp [hexp]
        by_cases hqs : q.1 = sid <;>
          by_cases hE : expiredIn rest thresh now q.1 = true
        · simp [expiredIn, List.any_cons, hqs, hdts]
        · simp [expiredIn, List.any_cons, hqs, hdts]
        · simp only [expiredIn, List.any_cons] at hE ⊢
          have h1 : (q.1 != sid) = true := by simp [hqs]
          have h2 : (sid == q.1) = false := by simpa using Ne.symm hqs
          simp [h1, h2, hE]
        · simp only [expiredIn, List.any_cons] at hE ⊢
          have h1 : (q.1 != sid) = true := by simp [hqs]
          have h2 : (sid == q.1) = false := by simpa using Ne.symm hqs
          rw [Bool.not_eq_true] at hE
          simp [h1, h2, hE]

/-- Witness for C2 at the spec scenario shape: recency-ordered tracker
`[(A,0), (B,50)]`, threshold 60, sweep at `now = 70`: `A` (idle 70) is
evicted from both dicts, `B` (idle 20) survives in both. -/
theorem C2_sweep_exact_witness :
    (tsSorted [("A", 0), ("B", 50)] = true ∧
      (List.map Prod.fst [("A", (0 : Int)), ("B", 50)]).Nodup) ∧
    _remove_expired_sessions [("A", 0), ("B", 50)]
      [("A", ⟨1, false, []⟩), ("B", ⟨2, false, []⟩)] 60 70 =
      ([("B", 50)], [("B", ⟨2, false, []⟩)], true) :=
  ⟨⟨by decide, by decide⟩, by
    have h := C2_sweep_exact [("A", 0), ("B", 50)]
      [("A", ⟨1, false, []⟩), ("B", ⟨2, false, []⟩)] 60 70
      (by decide) (by decide) (by decide)
    rw [h]
    decide⟩

theorem new_branch_spec (ses : Int) (tok : String)
    (sess : Session) (now : Int) (req : Request) (st : ServerState)
    (headers : List (String × HVal))
    (hwf : StateWF st) (hpos : 0 < ses) (hcl : sess.closed = false) :
    lookupKey (handleSession ses now req headers tok sess
        ⟨dictSet st.sessions tok sess, lruSet st.expire tok now,
         st.lastCheckTs⟩).1.sessions tok = some sess ∧
    lookupKey (handleSession ses now req headers tok sess
        ⟨dictSet st.sessions tok sess, lruSet st.expire tok now,
         st.lastCheckTs⟩).1.expire tok = some now ∧
    (∀ t, containsKey (handleSession ses now req headers tok sess
        ⟨dictSet st.sessions tok sess, lruSet st.expire tok now,
         st.lastCheckTs⟩).1.sessions t = true →
      t = tok ∨ containsKey st.sessions t = true) ∧
    (handleSession ses now req headers tok sess
        ⟨dictSet st.sessions tok sess, lruSet st.expire tok now,
         st.lastCheckTs⟩).2.2 =
      Outcome.ok ⟨200, RespBody.json sess.commands, headers⟩ ∧
    ¬(now - (handleSession ses now req headers tok sess
        ⟨dictSet st.sessions tok sess, lruSet st.expire tok now,
         st.lastCheckTs⟩).1.lastCheckTs > REMOVE_EXPIRED_SESSIONS_INTERVAL) := by
  have hwf' : StateWF ⟨dictSet st.sessions tok sess,
      lruSet st.expire tok now, st.lastCheckTs⟩ :=
    insert_pair_WF st tok sess now hwf
  obtain ⟨hflag, hwfs⟩ := runSweep_WF ses now _ hwf'
  obtain ⟨hst, hout⟩ := handleSession_not_closed ses now req headers tok sess
    ⟨dictSet st.sessions tok sess, lruSet st.expire tok now, st.lastCheckTs⟩
    hcl hflag
  have hfk := runSweep_fresh_kept ses now
    ⟨dictSet st.sessions tok sess, lruSet st.expire tok now, st.lastCheckTs⟩
    tok now hwf' (lookupKey_lruSet_self st.expire tok now) (by omega)
  refine ⟨?_, ?_, ?_, hout, ?_⟩
  · rw [hst, hfk.2]
    exact lookupKey_dictSet_self st.sessions tok sess
  · rw [hst, hfk.1]
  · intro t ht
    rw [hst] at ht
    have hmono := runSweep_sessions_mono ses now _ t ht
    rw [show (⟨dictSet st.sessions tok sess, lruSet st.expire tok now,
        st.lastCheckTs⟩ : ServerState).sessions
      = dictSet st.sessions tok sess from rfl, containsKey_dictSet] at hmono
    have hmono2 : containsKey st.sessions t = true ∨ t = tok := by
      simpa using hmono
    rcases hmono2 with h1 | h1
    · exact Or.inr h1
    · exact Or.inl h1
  · rw [hst]
    exact runSweep_immediate_recheck ses now _ hflag

theorem resume_followup (p : String → Bool) (ses : Int) (tok2 : String)
    (sess2 : Session) (now : Int) (tok : String) (sess : Session)
    (st1 : ServerState) (htok : tok ≠ "")
    (hl : lookupKey st1.sessions tok = some sess)
    (hcl : sess.closed = false)
    (hnd : ¬(now - st1.lastCheckTs > REMOVE_EXPIRED_SESSIONS_INTERVAL)) :
    _webio_view (pureCheck p) ses tok2 sess2 now
        ⟨Method.GET, none, false, some tok, ""⟩ st1 =
      (st1, noEffects, Outcome.ok ⟨200, RespBody.json sess.commands, []⟩) := by
  rw [webio_view_pure_eq p ses tok2 sess2 now
    ⟨Method.GET, none, false, some tok, ""⟩ st1 (by intro hc; cases hc),
    if_neg (by intro hc; cases hc)]
  simp only [if_neg htok, hl]
  have hflag2 : (runSweepIfDue ses now st1).2 = true := by
    rw [runSweepIfDue, if_neg hnd]
  have h12 : (runSweepIfDue ses now st1).1 = st1 := by
    rw [runSweepIfDue, if_neg hnd]
  obtain ⟨hs2, ho2⟩ := handleSession_not_closed ses now
    ⟨Method.GET, none, false, some tok, ""⟩ [] tok sess st1 hcl hflag2
  have heff : (handleSession ses now ⟨Method.GET, none, false, some tok, ""⟩
      [] tok sess st1).2.1 = noEffects := by
    rw [handleSession_effects]
    rfl
  exact Prod.ext (hs2.trans h12) (Prod.ext heff ho2)

/-- C6: a non-`OPTIONS`, non-probe request with an absent or empty
session-token header creates exactly one new session: the fresh token
maps to the new handle in the Registry and to an ActivityRecord with
the current timestamp, no other token is added, the token is echoed in
the `webio-session-id` response header, and an immediate follow-up
request with that token resolves to the same session handle. -/
theorem C6_new_session (p : String → Bool) (ses : Int) (tok : String)
    (sess : Session) (now : Int) (req : Request) (st : ServerState)
    (hm : req.method ≠ Method.OPTIONS) (hta : req.testArg = false)
    (hh : req.sessionHeader = none ∨ req.sessionHeader = some "")
    (hwf : StateWF st) (hpos : 0 < ses) (hcl : sess.closed = false)
    (htok : tok ≠ "") :
    lookupKey (_webio_view (pureCheck p) ses tok sess now req st).1.sessions tok
      = some sess ∧
    lookupKey (_webio_view (pureCheck p) ses tok sess now req st).1.expire tok
      = some now ∧
    (∀ t, containsKey
        (_webio_view (pureCheck p) ses tok sess now req st).1.sessions t = true →
      t = tok ∨ containsKey st.sessions t = true) ∧
    (_webio_view (pureCheck p) ses tok sess now req st).2.2 =
      Outcome.ok ⟨200, RespBody.json sess.commands,
        dictSet (requestHeaders p req) "webio-session-id" (HVal.str tok)⟩ ∧
    (∀ tok2 sess2,
      _webio_view (pureCheck p) ses tok2 sess2 now
          ⟨Method.GET, none, false, some tok, ""⟩
          (_webio_view (pureCheck p) ses tok sess now req st).1 =
        ((_webio_view (pureCheck p) ses tok sess now req st).1, noEffects,
          Outcome.ok ⟨200, RespBody.json sess.commands, []⟩)) := by
  have hview : _webio_view (pureCheck p) ses tok sess now req st =
      handleSession ses now req
        (dictSet (requestHeaders p req) "webio-session-id" (HVal.str tok))
        tok sess
        ⟨dictSet st.sessions tok sess, lruSet st.expire tok now,
         st.lastCheckTs⟩ := by
    rw [webio_view_pure_eq p ses tok sess now req st hm, if_neg (by simp [hta])]
    rcases hh with hh | hh
    · rw [hh]
    · rw [hh]
      rfl
  rw [hview]
  obtain ⟨k1, k2, k3, k4, k5⟩ := new_branch_spec ses tok sess now req st
    (dictSet (requestHeaders p req) "webio-session-id" (HVal.str tok))
    hwf hpos hcl
  exact ⟨k1, k2, k3, k4, fun tok2 sess2 =>
    resume_followup p ses tok2 sess2 now tok sess _ htok k1 hcl k5⟩

/-- Witness for C6: a `POST` with no session header on a one-session
state: token `TOK` is created with handle sid 7, timestamp 10, echoed
in the headers, and the immediate `GET` follow-up with `TOK` resolves
to the same handle. -/
theorem C6_new_session_witness :
    StateWF ⟨[("B", ⟨2, false, []⟩)], [("B", 3)], 0⟩ ∧
    (lookupKey (_webio_view (pureCheck (fun _ => true)) 60 "TOK"
        ⟨7, false, ["c"]⟩ 10 ⟨Method.POST, none, false, none, "ev"⟩
        ⟨[("B", ⟨2, false, []⟩)], [("B", 3)], 0⟩).1.sessions "TOK"
      = some ⟨7, false, ["c"]⟩ ∧
    lookupKey (_webio_view (pureCheck (fun _ => true)) 60 "TOK"
        ⟨7, false, ["c"]⟩ 10 ⟨Method.POST, none, false, none, "ev"⟩
        ⟨[("B", ⟨2, false, []⟩)], [("B", 3)], 0⟩).1.expire "TOK"
      = some 10 ∧
    (∀ t, containsKey (_webio_view (pureCheck (fun _ => true)) 60 "TOK"
        ⟨7, false, ["c"]⟩ 10 ⟨Method.POST, none, false, none, "ev"⟩
        ⟨[("B", ⟨2, false, []⟩)], [("B", 3)], 0⟩).1.sessions t = true →
      t = "TOK" ∨
        containsKey [("B", (⟨2, false, []⟩ : Session))] t = true) ∧
    (_webio_view (pureCheck (fun _ => true)) 60 "TOK"
        ⟨7, false, ["c"]⟩ 10 ⟨Method.POST, none, false, none, "ev"⟩
        ⟨[("B", ⟨2, false, []⟩)], [("B", 3)], 0⟩).2.2 =
      Outcome.ok ⟨200, RespBody.json ["c"],
        dictSet (requestHeaders (fun _ => true)
            ⟨Method.POST, none, false, none, "ev"⟩)
          "webio-session-id" (HVal.str "TOK")⟩ ∧
    (∀ tok2 sess2,
      _webio_view (pureCheck (fun _ => true)) 60 tok2 sess2 10
          ⟨Method.GET, none, false, some "TOK", ""⟩
          (_webio_view (pureCheck (fun _ => true)) 60 "TOK"
            ⟨7, false, ["c"]⟩ 10 ⟨Method.POST, none, false, none, "ev"⟩
            ⟨[("B", ⟨2, false, []⟩)], [("B", 3)], 0⟩).1 =
        ((_webio_view (pureCheck (fun _ => true)) 60 "TOK"
            ⟨7, false, ["c"]⟩ 10 ⟨Method.POST, none, false, none, "ev"⟩
            ⟨[("B", ⟨2, false, []⟩)], [("B", 3)], 0⟩).1, noEffects,
          Outcome.ok ⟨200, RespBody.json ["c"], []⟩))) :=
  have hwf : StateWF ⟨[("B", ⟨2, false, []⟩)], [("B", 3)], 0⟩ :=
    ⟨by simp, by simp, fun t => rfl⟩
  ⟨hwf, C6_new_session (fun _ => true) 60 "TOK" ⟨7, false, ["c"]⟩ 10
    ⟨Method.POST, none, false, none, "ev"⟩
    ⟨[("B", ⟨2, false, []⟩)], [("B", 3)], 0⟩
    (by intro hc; cases hc) rfl (Or.inl rfl) hwf (by decide) rfl (by decide)⟩

end Claims

end PyWebIO
